import Mathlib

/-!
Formal model of the DraftMate engine core (engine/resolver.py, engine/preview.py,
engine/generator.py and the CLI helpers of engine/__main__.py), shallowly embedded
as executable Lean definitions, together with verified properties of placeholder
resolution, template rotation, override precedence and preview/generation agreement.

Rows are association lists from (lowercase, trimmed) column names to trimmed string
values; dictionaries of the source are modelled as association lists with the same
lookup discipline (first match for plain dicts, last-write-wins where the source
builds a dict by iterating and overwriting).
-/

namespace DraftMate

/-- The literal open-brace character used by placeholder syntax. -/
def braceOpen : Char := '\x7b'

/-- The literal close-brace character used by placeholder syntax. -/
def braceClose : Char := '\x7d'

/-- Python whitespace characters, as used by str.strip() and str.split(). -/
def pyWs (c : Char) : Bool :=
  c == ' ' || c == '\t' || c == '\n' || c == '\r' || c == '\x0b' || c == '\x0c'

/-- Python str.strip(): remove leading and trailing whitespace. -/
def pyStrip (s : String) : String :=
  String.mk (((s.data.dropWhile pyWs).reverse.dropWhile pyWs).reverse)

/-- Python str.lower() (ASCII case folding, which covers the data in scope). -/
def pyLower (s : String) : String := String.mk (s.data.map Char.toLower)

/-- Whether the character list `p` is an initial segment of `l`. -/
def leadsWith : List Char → List Char → Bool
  | [], _ => true
  | _ :: _, [] => false
  | a :: as, b :: bs => a == b && leadsWith as bs

/-- Python substring containment (`p in l`) on character lists. -/
def hasSub (p : List Char) : List Char → Bool
  | [] => p.isEmpty
  | c :: cs => leadsWith p (c :: cs) || hasSub p cs

/-- Accumulating worker for whitespace splitting. -/
def splitWsAux : List Char → List Char → List String
  | [], acc => if acc.isEmpty then [] else [String.mk acc.reverse]
  | c :: cs, acc =>
    if pyWs c then
      if acc.isEmpty then splitWsAux cs []
      else String.mk acc.reverse :: splitWsAux cs []
    else splitWsAux cs (c :: acc)

/-- Python str.split() : split on whitespace runs, discarding empty pieces. -/
def pySplitWs (s : String) : List String := splitWsAux s.data []

/-- Split a character list at the first comma (comma dropped); identity in the
first component when no comma occurs. -/
def splitFirstComma : List Char → List Char × List Char
  | [] => ([], [])
  | c :: cs =>
    if c == ',' then ([], cs)
    else
      let r := splitFirstComma cs
      (c :: r.1, r.2)

/-- A data row: mapping from lowercase trimmed column name to trimmed value. -/
abbrev Row := List (String × String)

/-- Python row.get(k, "") for a dict with unique keys: first matching entry. -/
def rowGet (row : Row) (k : String) : String :=
  ((row.find? (fun kv => kv.1 == k)).map (fun kv => kv.2)).getD ""

/-- engine/__main__.py _parse_name : split a full name into (first, last).
The whitespace branch of the source indexes parts[0] on a nonempty list; the
resolver always passes a stripped value, so the empty-parts case is unreachable
and is modelled as ("",""). -/
def parse_name (full_name : String) : String × String :=
  if full_name = "" then ("", "")
  else
    let fn := pyStrip full_name
    if fn.data.contains ',' then
      (pyStrip (String.mk (splitFirstComma fn.data).2),
       pyStrip (String.mk (splitFirstComma fn.data).1))
    else
      match pySplitWs fn with
      | [] => ("", "")
      | [p] => (p, "")
      | p1 :: p2 :: ps => (p1, (p2 :: ps).getLast (List.cons_ne_nil _ _))

/-- engine/__main__.py _parse_bool : truthy string values. -/
def parse_bool (val : String) : Bool :=
  ["1", "true", "yes", "y"].contains (pyLower (pyStrip val))

/-- The last key of `row` (in insertion order) whose lowercase form is `key`;
models the last-write-wins dict comprehension in _is_generate_true. -/
def lower_key_lookup (row : Row) (key : String) : Option String :=
  ((row.map (fun kv => kv.1)).reverse).find? (fun k => pyLower k == key)

/-- engine/__main__.py _is_generate_true : decide row eligibility from the
first of the ("generate", "gen") columns present (case-insensitive). -/
def is_generate_true (row : Row) : Bool :=
  match lower_key_lookup row "generate" with
  | some k => parse_bool (rowGet row k)
  | none =>
    match lower_key_lookup row "gen" with
    | some k => parse_bool (rowGet row k)
    | none => true

/-! ### Header detection (PlaceholderResolver.__init__ helpers) -/

/-- _first_contains_header : first header whose lowercase form contains one of
`subs` as a substring and none of `excl`. -/
def firstContainsHeader (headers : List String) (subs excl : List String) :
    Option String :=
  headers.find? (fun h =>
    (subs.any (fun s => hasSub s.data (pyLower h).data)) &&
    !(excl.any (fun e => hasSub e.data (pyLower h).data)))

/-- The resolver's full-name header: first exact match of "full name" or "name". -/
def fullNameHeader (headers : List String) : Option String :=
  headers.find? (fun h => h == "full name" || h == "name")

/-- The resolver's firm/company header: exact candidates first, then substring
fallback that excludes headers containing "email". -/
def companyHeader (headers : List String) : Option String :=
  match headers.find? (fun h =>
      h == "firm" || h == "company" || h == "firm name" ||
      h == "company name" || h == "business") with
  | some h => some h
  | none => firstContainsHeader headers ["company", "firm"] ["email"]

/-- The resolver's school header. -/
def schoolHeader (headers : List String) : Option String :=
  firstContainsHeader headers ["school", "college", "university", "uni"] []

/-- The resolver's email header. -/
def emailHeaderOf (headers : List String) : Option String :=
  firstContainsHeader headers ["email"] []

/-! ### Derived placeholder map (PlaceholderResolver._build_derived_defaults) -/

/-- The derived placeholder map: exactly the six keys the resolver builds. -/
structure Derived where
  firstName : String
  lastName : String
  fullName : String
  firm : String
  firmName : String
  school : String
deriving DecidableEq

/-- Dictionary view of the derived map, keyed as in the source. -/
def lookupDerived (d : Derived) (key : String) : Option String :=
  if key = "first name" then some d.firstName
  else if key = "last name" then some d.lastName
  else if key = "full name" then some d.fullName
  else if key = "firm" then some d.firm
  else if key = "firm name" then some d.firmName
  else if key = "school" then some d.school
  else none

/-- _build_derived_defaults, including the literal-"name" fallback and the
honorific rule that rewrites the first name when a nonempty "prefix" column
value is present. -/
def buildDerived (headers : List String) (row : Row)
    (parse_name_fn : String → String × String) : Derived :=
  let fullVal0 := match fullNameHeader headers with
    | some h => pyStrip (rowGet row h)
    | none => ""
  let fl0 := parse_name_fn fullVal0
  let firmVal := match companyHeader headers with
    | some h => pyStrip (rowGet row h)
    | none => ""
  let schoolVal := match schoolHeader headers with
    | some h => pyStrip (rowGet row h)
    | none => ""
  let fb := pyStrip (rowGet row "name")
  let useFb := fullVal0 = "" ∧ headers.contains "name" ∧ fb ≠ ""
  let fullVal := if useFb then fb else fullVal0
  let fl := if useFb ∧ fl0.1 = "" ∧ fl0.2 = "" then parse_name_fn fb else fl0
  let pfxH := headers.find? (fun h => h == "prefix")
  let firstFinal := match pfxH with
    | some h =>
      let pv := pyStrip (rowGet row h)
      if pv ≠ "" then (if fl.2 ≠ "" then pv ++ ". " ++ fl.2 else pv ++ ".")
      else fl.1
    | none => fl.1
  { firstName := firstFinal, lastName := fl.2, fullName := fullVal,
    firm := firmVal, firmName := firmVal, school := schoolVal }

/-- PlaceholderResolver.get_email : trimmed value of the email header, with a
literal "email" key fallback. -/
def get_email (headers : List String) (row : Row) : String :=
  match emailHeaderOf headers with
  | some h => pyStrip (rowGet row h)
  | none => pyStrip (rowGet row "email")

/-- Normalized (lowercased, stripped) email of a row, as computed at the use
sites of the source. -/
def emailNormOf (headers : List String) (row : Row) : String :=
  pyStrip (pyLower (get_email headers row))

/-! ### Placeholder substitution (PlaceholderResolver._resolve_token / resolve_text) -/

/-- _resolve_token : derived-map lookup first, then exact header match with the
row value trimmed, else the empty string. -/
def resolve_token (headers : List String) (row : Row)
    (parse_name_fn : String → String × String) (tokenText : String) : String :=
  let key := pyLower (pyStrip tokenText)
  match lookupDerived (buildDerived headers row parse_name_fn) key with
  | some v => v
  | none =>
    match headers.find? (fun h => h == key) with
    | some h => pyStrip (rowGet row h)
    | none => ""

/-- Split a character list at the first brace (of either kind). -/
def spanNonBrace : List Char → List Char × List Char
  | [] => ([], [])
  | c :: cs =>
    if c == braceOpen || c == braceClose then ([], c :: cs)
    else
      let r := spanNonBrace cs
      (c :: r.1, r.2)

/-- Single left-to-right pass of re.sub over the pattern of one open brace, a
nonempty run of non-brace characters, and a close brace; replacements are
emitted verbatim and never rescanned. `fuel` bounds the recursion and is always
sufficient when it starts at the list length. -/
def substAux (f : String → String) : Nat → List Char → List Char
  | 0, l => l
  | _ + 1, [] => []
  | fuel + 1, c :: cs =>
    if c == braceOpen then
      match spanNonBrace cs with
      | ([], _) => c :: substAux f fuel cs
      | (t :: ts, d :: tail) =>
        if d == braceClose then
          (f (String.mk (t :: ts))).data ++ substAux f fuel tail
        else c :: substAux f fuel cs
      | (_ :: _, []) => c :: substAux f fuel cs
    else c :: substAux f fuel cs

/-- All placeholder tokens of a character list substituted in one pass. -/
def substTokens (f : String → String) (l : List Char) : List Char :=
  substAux f l.length l

/-- PlaceholderResolver.resolve_text : fast path for brace-free text, otherwise
one regex-substitution pass. -/
def resolve_text (headers : List String) (row : Row)
    (parse_name_fn : String → String × String) (text : String) : String :=
  if text.data.contains braceOpen then
    String.mk (substTokens (resolve_token headers row parse_name_fn) text.data)
  else text

/-! ### Templates, rotation counters and template selection (engine/preview.py) -/

/-- An email template record (id is the stable opaque identifier). -/
structure Template where
  id : String
  name : String
  text : String
  manual_only : Bool
deriving DecidableEq

/-- The per-pass firm rotation counters, as a dictionary. -/
abbrev Counts := List (String × Nat)

/-- firm_counts.get(k, 0). -/
def countsGet (c : Counts) (k : String) : Nat :=
  ((c.find? (fun kv => kv.1 == k)).map (fun kv => kv.2)).getD 0

/-- firm_counts[k] = v : replace the first binding of k, else append. -/
def countsSet : Counts → String → Nat → Counts
  | [], k, v => [(k, v)]
  | (k', v') :: rest, k, v =>
    if k' == k then (k, v) :: rest else (k', v') :: countsSet rest k v

/-- _template_by_id : first template with the given id. -/
def template_by_id (templates : List Template) (tid : String) : Option Template :=
  templates.find? (fun t => t.id == tid)

/-- _rotatable_templates : templates not flagged manual_only. -/
def rotatable_templates (templates : List Template) : List Template :=
  templates.filter (fun t => !t.manual_only)

/-- The recipient override map lookup (a plain dict with unique keys). -/
def overrides_lookup (overrides : List (String × String)) (email : String) :
    Option String :=
  ((overrides.find? (fun kv => kv.1 == email)).map (fun kv => kv.2))

/-- The automatic-rotation branch of choose_template_for_row: increment this
firm's counter and pick rotatable[(count - 1) mod len(rotatable)]. -/
def rotation_pick (rot : List Template) (firm : String) (firm_counts : Counts) :
    (Option Template × Bool) × Counts :=
  match rot with
  | [] => ((none, false), firm_counts)
  | t :: ts =>
    let k := countsGet firm_counts firm + 1
    let idx := (k - 1) % (t :: ts).length
    ((some ((t :: ts).get ⟨idx, Nat.mod_lt _ (Nat.succ_pos _)⟩), false),
     countsSet firm_counts firm k)

/-- choose_template_for_row : manual override first (when the email is nonempty,
present in the override map, and its template id still exists), else rotation.
Returns the ((template?, is_manual) pair, updated counters). -/
def choose_template_for_row (headers : List String)
    (parse_name_fn : String → String × String) (templates : List Template)
    (overrides : List (String × String)) (row : Row) (firm_counts : Counts) :
    (Option Template × Bool) × Counts :=
  let email := emailNormOf headers row
  let firm := (buildDerived headers row parse_name_fn).firm
  let rotPick := rotation_pick (rotatable_templates templates) firm firm_counts
  if email = "" then rotPick
  else
    match overrides_lookup overrides email with
    | none => rotPick
    | some tid =>
      match template_by_id templates tid with
      | some t => ((some t, true), firm_counts)
      | none => rotPick

/-! ### Preview rows (engine/preview.py build_preview_rows) -/

/-- One preview table entry. -/
structure PreviewRow where
  name : String
  email : String
  email_norm : String
  firm : String
  template_name : String
  template_id : Option String
  is_manual : Bool
  is_eligible : Bool
deriving DecidableEq

/-- Row eligibility: generate flag true and the display email valid. -/
def eligibleRow (headers : List String) (gen_fn : Row → Bool)
    (valid_fn : String → Bool) (row : Row) : Bool :=
  gen_fn row && valid_fn (get_email headers row)

/-- The display-name rule of build_preview_rows (honorific rows show the full
name in parentheses). -/
def nameDisplay (headers : List String)
    (parse_name_fn : String → String × String) (row : Row) : String :=
  let d := buildDerived headers row parse_name_fn
  if pyStrip (rowGet row "prefix") ≠ "" then
    d.firstName ++ " (" ++ d.fullName ++ ")"
  else
    pyStrip (d.firstName ++ (if d.lastName ≠ "" then " " ++ d.lastName else ""))

/-- One emitted preview entry, from the (template?, is_manual) pair chosen for
the row; a missing template displays as "–" and resets is_manual. -/
def mkPreviewRow (headers : List String)
    (parse_name_fn : String → String × String) (row : Row) (eligible : Bool)
    (chosen : Option Template × Bool) : PreviewRow :=
  match chosen.1 with
  | some t =>
    { name := nameDisplay headers parse_name_fn row,
      email := get_email headers row,
      email_norm := pyStrip (pyLower (get_email headers row)),
      firm := (buildDerived headers row parse_name_fn).firm,
      template_name := t.name, template_id := some t.id,
      is_manual := chosen.2, is_eligible := eligible }
  | none =>
    { name := nameDisplay headers parse_name_fn row,
      email := get_email headers row,
      email_norm := pyStrip (pyLower (get_email headers row)),
      firm := (buildDerived headers row parse_name_fn).firm,
      template_name := "–", template_id := none,
      is_manual := false, is_eligible := eligible }

/-- The body of build_preview_rows, threading the firm counters across rows. -/
def preview_aux (headers : List String) (templates : List Template)
    (overrides : List (String × String))
    (parse_name_fn : String → String × String) (gen_fn : Row → Bool)
    (valid_fn : String → Bool) (only_recipients : Bool) :
    Counts → List Row → List PreviewRow
  | _, [] => []
  | firm_counts, row :: rest =>
    if only_recipients && !(eligibleRow headers gen_fn valid_fn row) then
      preview_aux headers templates overrides parse_name_fn gen_fn valid_fn
        only_recipients firm_counts rest
    else
      let step :=
        if eligibleRow headers gen_fn valid_fn row then
          choose_template_for_row headers parse_name_fn templates overrides row
            firm_counts
        else ((none, false), firm_counts)
      mkPreviewRow headers parse_name_fn row
          (eligibleRow headers gen_fn valid_fn row) step.1 ::
        preview_aux headers templates overrides parse_name_fn gen_fn
          valid_fn only_recipients step.2 rest

/-- build_preview_rows : the firm counters always start from the fresh empty
dictionary created inside the call. -/
def build_preview_rows (rows : List Row) (headers : List String)
    (templates : List Template) (overrides : List (String × String))
    (parse_name_fn : String → String × String) (only_recipients : Bool)
    (gen_fn : Row → Bool) (valid_fn : String → Bool) : List PreviewRow :=
  preview_aux headers templates overrides parse_name_fn gen_fn valid_fn
    only_recipients [] rows

/-! ### Draft generation (engine/generator.py) -/

/-- Left-to-right non-overlapping replacement of `pat` by `rep`, the semantics
of Python str.replace; `fuel` is always sufficient at the list length. -/
def replaceAux (pat rep : List Char) : Nat → List Char → List Char
  | 0, l => l
  | _ + 1, [] => []
  | fuel + 1, c :: cs =>
    if leadsWith pat (c :: cs) then
      rep ++ replaceAux pat rep fuel (List.drop pat.length (c :: cs))
    else c :: replaceAux pat rep fuel cs

/-- Python s.replace(pat, rep). -/
def pyReplace (s pat rep : String) : String :=
  String.mk (replaceAux pat.data rep.data s.data.length s.data)

/-- The character set Python strips for lstrip("<br>") / rstrip("<br>"):
strip takes a set of characters, not a literal marker string. -/
def brChars (c : Char) : Bool :=
  c == '<' || c == 'b' || c == 'r' || c == '>'

/-- _wrap_in_html : double spaces to paragraph breaks, newlines to line breaks,
then charset-based lstrip/rstrip, then the styled envelope. -/
def wrap_in_html (text : String) : String :=
  let t := pyStrip text
  let h1 := pyReplace t "  " "<br><br>"
  let h2 := pyReplace h1 "\n" "<br>"
  let h3 := pyStrip h2
  let h4 := String.mk (((h3.data.dropWhile brChars).reverse.dropWhile
    brChars).reverse)
  pyStrip ("<html><body style=\x27margin:0;padding:0;font-family:Arial,sans-serif;\x27>"
    ++ h4 ++ "</body></html>")

/-- _build_rows_by_email followed by .get : the last row (in order) whose
nonempty normalized email equals `e`. -/
def rows_by_email_lookup (headers : List String) (rows : List Row)
    (e : String) : Option Row :=
  if e = "" then none
  else rows.reverse.find? (fun r => emailNormOf headers r == e)

/-- templates_by_id built by dict comprehension (last template wins per id). -/
def templates_by_id_last (templates : List Template) (tid : String) :
    Option Template :=
  templates.reverse.find? (fun t => t.id == tid)

/-- One fully resolved draft as handed to the mail-client sink, together with
the template it was produced from. -/
structure Draft where
  toAddr : String
  subject : String
  body : String
  attach : Option String
  tpl : Template
deriving DecidableEq

/-- The generation loop of generate_emails over the preview entries, returning
the draft count and (when not dry_run) the handed-off drafts in order. -/
def generate_aux (headers : List String) (templates : List Template)
    (parse_name_fn : String → String × String) (rows : List Row)
    (subject_template : String) (resume_path : Option String)
    (dry_run : Bool) : List PreviewRow → Nat × List Draft
  | [] => (0, [])
  | p :: ps =>
    let rest := generate_aux headers templates parse_name_fn rows
      subject_template resume_path dry_run ps
    let email_norm :=
      if p.email_norm ≠ "" then p.email_norm else pyStrip (pyLower p.email)
    match p.template_id with
    | none => rest
    | some tid =>
      if email_norm = "" ∨ tid = "" then rest
      else
        match rows_by_email_lookup headers rows email_norm with
        | none => rest
        | some row =>
          match templates_by_id_last templates tid with
          | none => rest
          | some tpl =>
            let subj := resolve_text headers row parse_name_fn subject_template
            let body := wrap_in_html
              (resolve_text headers row parse_name_fn tpl.text)
            if dry_run then (rest.1 + 1, rest.2)
            else
              (rest.1 + 1,
               { toAddr := if p.email ≠ "" then p.email else email_norm,
                 subject := subj, body := body, attach := resume_path,
                 tpl := tpl } :: rest.2)

/-- generate_emails : build the preview rows internally with
only_recipients = true and produce one draft per qualifying entry. -/
def generate_emails (rows : List Row) (headers : List String)
    (templates : List Template) (overrides : List (String × String))
    (parse_name_fn : String → String × String) (gen_fn : Row → Bool)
    (valid_fn : String → Bool) (subject_template : String)
    (resume_path : Option String) (dry_run : Bool) : Nat × List Draft :=
  generate_aux headers templates parse_name_fn rows subject_template
    resume_path dry_run
    (build_preview_rows rows headers templates overrides parse_name_fn true
      gen_fn valid_fn)

/-! ### Concrete fixtures used by witnesses and counterexamples -/

/-- Rotatable demo template A. -/
def tplA : Template := ⟨"a", "A", "Hi \x7bfirst name\x7d", false⟩

/-- Rotatable demo template B. -/
def tplB : Template := ⟨"b", "B", "Hello \x7bfirst name\x7d", false⟩

/-- Rotatable demo template C. -/
def tplC : Template := ⟨"c", "C", "Dear \x7bfull name\x7d", false⟩

/-- Manual-only demo template. -/
def tplM : Template := ⟨"m", "M", "Manual \x7bfirm\x7d", true⟩

/-- Demo header list. -/
def demoHeaders : List String := ["name", "email", "firm"]

/-- Demo rows at one firm. -/
def rowJane : Row := [("name", "Jane Doe"), ("email", "jane@acme.com"), ("firm", "Acme")]

/-- Second demo row. -/
def rowBob : Row := [("name", "Bob Lee"), ("email", "bob@acme.com"), ("firm", "Acme")]

/-- Third demo row. -/
def rowCara : Row := [("name", "Cara Moe"), ("email", "cara@acme.com"), ("firm", "Acme")]

/-- Fourth demo row. -/
def rowDan : Row := [("name", "Dan Poe"), ("email", "dan@acme.com"), ("firm", "Acme")]

/-- Demo eligibility predicate accepting the demo emails. -/
def demoValid (e : String) : Bool :=
  decide (e = "jane@acme.com" ∨ e = "bob@acme.com" ∨ e = "cara@acme.com" ∨
    e = "dan@acme.com")

/-! ### Helper lemmas -/

theorem String.mk_data (s : String) : String.mk s.data = s := rfl

theorem countsGet_countsSet_self (c : Counts) (k : String) (v : Nat) :
    countsGet (countsSet c k v) k = v := by
  induction c with
  | nil => simp [countsSet, countsGet]
  | cons kv rest ih =>
    obtain ⟨k', v'⟩ := kv
    by_cases h : k' = k
    · subst h; simp [countsSet, countsGet]
    · simpa [countsSet, countsGet, List.find?_cons, h] using ih

theorem countsGet_countsSet_ne (c : Counts) (k k' : String) (v : Nat)
    (h : k ≠ k') : countsGet (countsSet c k v) k' = countsGet c k' := by
  induction c with
  | nil => simp [countsSet, countsGet, List.find?_cons, h]
  | cons kv rest ih =>
    obtain ⟨a, b⟩ := kv
    by_cases ha : a = k
    · subst ha; simp [countsSet, countsGet, List.find?_cons, h]
    · by_cases ha' : a = k'
      · subst ha'; simp [countsSet, countsGet, List.find?_cons, ha]
      · simpa [countsSet, countsGet, List.find?_cons, ha, ha'] using ih

theorem find?_congr_of_mem {α : Type} {p q : α → Bool} :
    ∀ {l : List α}, (∀ a ∈ l, p a = q a) → l.find? p = l.find? q := by
  intro l
  induction l with
  | nil => intro _; rfl
  | cons a l ih =>
    intro h
    have ha := h a (List.mem_cons_self a l)
    by_cases hp : p a = true
    · rw [List.find?_cons_of_pos _ hp, List.find?_cons_of_pos _ (ha ▸ hp)]
    · rw [List.find?_cons_of_neg _ hp,
        List.find?_cons_of_neg _ (by rw [← ha]; exact hp)]
      exact ih (fun x hx => h x (List.mem_cons_of_mem a hx))

theorem mkPreviewRow_is_eligible (headers : List String)
    (parse_name_fn : String → String × String) (row : Row) (e : Bool)
    (chosen : Option Template × Bool) :
    (mkPreviewRow headers parse_name_fn row e chosen).is_eligible = e := by
  rcases chosen with ⟨t?, m⟩
  cases t? <;> rfl

theorem mkPreviewRow_template_id (headers : List String)
    (parse_name_fn : String → String × String) (row : Row) (e : Bool)
    (chosen : Option Template × Bool) :
    (mkPreviewRow headers parse_name_fn row e chosen).template_id =
      chosen.1.map (fun t => t.id) := by
  rcases chosen with ⟨t?, m⟩
  cases t? <;> rfl

theorem mkPreviewRow_firm (headers : List String)
    (parse_name_fn : String → String × String) (row : Row) (e : Bool)
    (chosen : Option Template × Bool) :
    (mkPreviewRow headers parse_name_fn row e chosen).firm =
      (buildDerived headers row parse_name_fn).firm := by
  rcases chosen with ⟨t?, m⟩
  cases t? <;> rfl

theorem mkPreviewRow_email (headers : List String)
    (parse_name_fn : String → String × String) (row : Row) (e : Bool)
    (chosen : Option Template × Bool) :
    (mkPreviewRow headers parse_name_fn row e chosen).email =
      get_email headers row := by
  rcases chosen with ⟨t?, m⟩
  cases t? <;> rfl

theorem mkPreviewRow_email_norm (headers : List String)
    (parse_name_fn : String → String × String) (row : Row) (e : Bool)
    (chosen : Option Template × Bool) :
    (mkPreviewRow headers parse_name_fn row e chosen).email_norm =
      emailNormOf headers row := by
  rcases chosen with ⟨t?, m⟩
  cases t? <;> rfl

theorem mkPreviewRow_is_manual_none (headers : List String)
    (parse_name_fn : String → String × String) (row : Row) (e : Bool)
    (m : Bool) :
    (mkPreviewRow headers parse_name_fn row e (none, m)).is_manual = false :=
  rfl

theorem choose_override_spec (headers : List String)
    (parse_name_fn : String → String × String) (templates : List Template)
    (overrides : List (String × String)) (row : Row) (firm_counts : Counts)
    (tid : String) (t : Template)
    (h1 : emailNormOf headers row ≠ "")
    (h2 : overrides_lookup overrides (emailNormOf headers row) = some tid)
    (h3 : template_by_id templates tid = some t) :
    choose_template_for_row headers parse_name_fn templates overrides row
      firm_counts = ((some t, true), firm_counts) := by
  simp [choose_template_for_row, h1, h2, h3]

theorem choose_no_override (headers : List String)
    (parse_name_fn : String → String × String) (templates : List Template)
    (overrides : List (String × String)) (row : Row) (firm_counts : Counts)
    (h : overrides_lookup overrides (emailNormOf headers row) = none ∨
      emailNormOf headers row = "") :
    choose_template_for_row headers parse_name_fn templates overrides row
      firm_counts =
    rotation_pick (rotatable_templates templates)
      (buildDerived headers row parse_name_fn).firm firm_counts := by
  rcases h with h | h
  · by_cases he : emailNormOf headers row = ""
    · simp [choose_template_for_row, he]
    · simp [choose_template_for_row, he, h]
  · simp [choose_template_for_row, h]

theorem rotation_pick_mem (rot : List Template) (firm : String) (c : Counts)
    (t : Template) (h : (rotation_pick rot firm c).1.1 = some t) : t ∈ rot := by
  cases rot with
  | nil => simp [rotation_pick] at h
  | cons t0 ts =>
    simp only [rotation_pick, Option.some.injEq] at h
    rw [← h]
    exact List.get_mem _ _ _

theorem choose_mem_templates (headers : List String)
    (parse_name_fn : String → String × String) (templates : List Template)
    (overrides : List (String × String)) (row : Row) (firm_counts : Counts)
    (t : Template)
    (h : (choose_template_for_row headers parse_name_fn templates overrides row
      firm_counts).1.1 = some t) : t ∈ templates := by
  by_cases he : emailNormOf headers row = ""
  · rw [choose_no_override _ _ _ _ _ _ (Or.inr he)] at h
    exact List.mem_of_mem_filter (rotation_pick_mem _ _ _ _ h)
  · rcases ho : overrides_lookup overrides (emailNormOf headers row) with _ | tid
    · rw [choose_no_override _ _ _ _ _ _ (Or.inl ho)] at h
      exact List.mem_of_mem_filter (rotation_pick_mem _ _ _ _ h)
    · rcases ht : template_by_id templates tid with _ | t'
      · have : choose_template_for_row headers parse_name_fn templates
            overrides row firm_counts =
            rotation_pick (rotatable_templates templates)
              (buildDerived headers row parse_name_fn).firm firm_counts := by
          simp [choose_template_for_row, he, ho, ht]
        rw [this] at h
        exact List.mem_of_mem_filter (rotation_pick_mem _ _ _ _ h)
      · have : choose_template_for_row headers parse_name_fn templates
            overrides row firm_counts = ((some t', true), firm_counts) :=
          choose_override_spec _ _ _ _ _ _ _ _ he ho ht
        rw [this] at h
        simp only at h
        cases h
        exact List.mem_of_find?_eq_some ht

theorem rotation_pick_cons (t0 : Template) (ts : List Template) (firm : String)
    (c : Counts) :
    rotation_pick (t0 :: ts) firm c =
      ((some ((t0 :: ts).get
          ⟨countsGet c firm % (t0 :: ts).length, Nat.mod_lt _ (Nat.succ_pos _)⟩),
        false),
       countsSet c firm (countsGet c firm + 1)) := by
  simp [rotation_pick]

theorem range_map_succ {α : Type} (F : Nat → α) (n : Nat) :
    (List.range (n + 1)).map F = F 0 :: (List.range n).map (fun k => F (k + 1)) := by
  simp [List.range_succ_eq_map, List.map_map, Function.comp]

theorem preview_aux_cons_eligible (headers : List String)
    (templates : List Template) (overrides : List (String × String))
    (parse_name_fn : String → String × String) (gen_fn : Row → Bool)
    (valid_fn : String → Bool) (only_recipients : Bool) (r : Row)
    (rs : List Row) (c : Counts)
    (he : eligibleRow headers gen_fn valid_fn r = true) :
    preview_aux headers templates overrides parse_name_fn gen_fn valid_fn
        only_recipients c (r :: rs) =
      mkPreviewRow headers parse_name_fn r true
          (choose_template_for_row headers parse_name_fn templates overrides
            r c).1 ::
        preview_aux headers templates overrides parse_name_fn gen_fn valid_fn
          only_recipients
          (choose_template_for_row headers parse_name_fn templates overrides
            r c).2 rs := by
  simp [preview_aux, he]

theorem preview_aux_cons_ineligible (headers : List String)
    (templates : List Template) (overrides : List (String × String))
    (parse_name_fn : String → String × String) (gen_fn : Row → Bool)
    (valid_fn : String → Bool) (r : Row) (rs : List Row) (c : Counts)
    (he : eligibleRow headers gen_fn valid_fn r = false) :
    preview_aux headers templates overrides parse_name_fn gen_fn valid_fn
        false c (r :: rs) =
      mkPreviewRow headers parse_name_fn r false (none, false) ::
        preview_aux headers templates overrides parse_name_fn gen_fn valid_fn
          false c rs := by
  simp [preview_aux, he]

theorem preview_aux_cons_skip (headers : List String)
    (templates : List Template) (overrides : List (String × String))
    (parse_name_fn : String → String × String) (gen_fn : Row → Bool)
    (valid_fn : String → Bool) (r : Row) (rs : List Row) (c : Counts)
    (he : eligibleRow headers gen_fn valid_fn r = false) :
    preview_aux headers templates overrides parse_name_fn gen_fn valid_fn
        true c (r :: rs) =
      preview_aux headers templates overrides parse_name_fn gen_fn valid_fn
        true c rs := by
  simp [preview_aux, he]

theorem preview_aux_ineligible_entry (headers : List String)
    (templates : List Template) (overrides : List (String × String))
    (parse_name_fn : String → String × String) (gen_fn : Row → Bool)
    (valid_fn : String → Bool) (only_recipients : Bool) :
    ∀ (rows : List Row) (c : Counts) (p : PreviewRow),
      p ∈ preview_aux headers templates overrides parse_name_fn gen_fn
        valid_fn only_recipients c rows →
      p.is_eligible = false → p.template_id = none ∧ p.is_manual = false := by
  intro rows
  induction rows with
  | nil => intro c p hp; simp [preview_aux] at hp
  | cons r rs ih =>
    intro c p hp hel
    by_cases he : eligibleRow headers gen_fn valid_fn r = true
    · rw [preview_aux_cons_eligible headers templates overrides parse_name_fn
        gen_fn valid_fn only_recipients r rs c he] at hp
      rcases List.mem_cons.mp hp with rfl | hmem
      · rw [mkPreviewRow_is_eligible] at hel
        exact absurd hel (by simp)
      · exact ih _ _ hmem hel
    · have he' : eligibleRow headers gen_fn valid_fn r = false :=
        Bool.eq_false_iff.mpr he
      cases honly : only_recipients with
      | true =>
        subst honly
        rw [preview_aux_cons_skip headers templates overrides parse_name_fn
          gen_fn valid_fn r rs c he'] at hp
        exact ih _ _ hp hel
      | false =>
        subst honly
        rw [preview_aux_cons_ineligible headers templates overrides
          parse_name_fn gen_fn valid_fn r rs c he'] at hp
        rcases List.mem_cons.mp hp with rfl | hmem
        · exact ⟨mkPreviewRow_template_id headers parse_name_fn r false
            (none, false) ▸ rfl,
            mkPreviewRow_is_manual_none headers parse_name_fn r false false⟩
        · exact ih _ _ hmem hel

theorem rotation_pick_fst_id (rot : List Template) (firm : String)
    (c : Counts) (h : rot ≠ []) :
    ((rotation_pick rot firm c).1.1).map (fun t => t.id) =
      (rot.get? (countsGet c firm % rot.length)).map (fun t => t.id) := by
  cases rot with
  | nil => exact absurd rfl h
  | cons t0 ts =>
    rw [rotation_pick_cons, List.get?_eq_get (show countsGet c firm %
      (t0 :: ts).length < (t0 :: ts).length from
      Nat.mod_lt _ (Nat.succ_pos _))]

theorem rotation_pick_snd (rot : List Template) (firm : String) (c : Counts)
    (h : rot ≠ []) :
    (rotation_pick rot firm c).2 = countsSet c firm (countsGet c firm + 1) := by
  cases rot with
  | nil => exact absurd rfl h
  | cons t0 ts => rw [rotation_pick_cons]

theorem preview_rotation_seq (headers : List String)
    (templates : List Template) (overrides : List (String × String))
    (parse_name_fn : String → String × String) (gen_fn : Row → Bool)
    (valid_fn : String → Bool) (only_recipients : Bool) (f : String)
    (hrot : rotatable_templates templates ≠ []) :
    ∀ (rows : List Row) (c : Counts),
      (∀ r ∈ rows, overrides_lookup overrides (emailNormOf headers r) = none ∨
        emailNormOf headers r = "") →
      ((preview_aux headers templates overrides parse_name_fn gen_fn valid_fn
          only_recipients c rows).filter
        (fun p => p.is_eligible && p.firm == f)).map (fun p => p.template_id)
      = (List.range ((rows.filter (fun r =>
            eligibleRow headers gen_fn valid_fn r &&
            ((buildDerived headers r parse_name_fn).firm == f))).length)).map
          (fun k => ((rotatable_templates templates).get?
              ((countsGet c f + k) %
                (rotatable_templates templates).length)).map
            (fun t => t.id)) := by
  intro rows
  induction rows with
  | nil => intro c _; simp [preview_aux]
  | cons r rs ih =>
    intro c hov
    have hovr := hov r (List.mem_cons_self _ _)
    have hovs := fun x hx => hov x (List.mem_cons_of_mem _ hx)
    by_cases he : eligibleRow headers gen_fn valid_fn r = true
    · have hch := choose_no_override headers parse_name_fn templates overrides
        r c hovr
      rw [preview_aux_cons_eligible headers templates overrides parse_name_fn
        gen_fn valid_fn only_recipients r rs c he, hch,
        rotation_pick_snd _ _ _ hrot]
      by_cases hgf : (buildDerived headers r parse_name_fn).firm = f
      · have hpos1 : (fun p : PreviewRow => p.is_eligible && p.firm == f)
            (mkPreviewRow headers parse_name_fn r true
              (rotation_pick (rotatable_templates templates)
                (buildDerived headers r parse_name_fn).firm c).1) = true := by
          simp [mkPreviewRow_is_eligible, mkPreviewRow_firm, hgf]
        have hpos2 : (fun r => eligibleRow headers gen_fn valid_fn r &&
            ((buildDerived headers r parse_name_fn).firm == f)) r = true := by
          simp [he, hgf]
        rw [List.filter_cons, List.filter_cons, if_pos hpos1, if_pos hpos2,
          List.map_cons, List.length_cons, range_map_succ]
        congr 1
        · rw [mkPreviewRow_template_id,
            rotation_pick_fst_id _ _ _ hrot, hgf, Nat.add_zero]
        · rw [hgf, ih _ hovs, countsGet_countsSet_self]
          exact List.map_congr_left (fun k _ => by
            have harith : countsGet c f + (k + 1) = countsGet c f + 1 + k := by
              omega
            rw [harith])
      · have hneg1 : ¬ ((fun p : PreviewRow => p.is_eligible && p.firm == f)
            (mkPreviewRow headers parse_name_fn r true
              (rotation_pick (rotatable_templates templates)
                (buildDerived headers r parse_name_fn).firm c).1) = true) := by
          simp [mkPreviewRow_is_eligible, mkPreviewRow_firm, hgf]
        have hneg2 : ¬ ((fun r => eligibleRow headers gen_fn valid_fn r &&
            ((buildDerived headers r parse_name_fn).firm == f)) r = true) := by
          simp [hgf]
        rw [List.filter_cons, List.filter_cons, if_neg hneg1, if_neg hneg2,
          ih _ hovs, countsGet_countsSet_ne _ _ _ _ hgf]
    · have he' : eligibleRow headers gen_fn valid_fn r = false :=
        Bool.eq_false_iff.mpr he
      have hneg2 : ¬ ((fun r => eligibleRow headers gen_fn valid_fn r &&
          ((buildDerived headers r parse_name_fn).firm == f)) r = true) := by
        simp [he']
      cases honly : only_recipients with
      | true =>
        subst honly
        rw [preview_aux_cons_skip headers templates overrides parse_name_fn
          gen_fn valid_fn r rs c he', List.filter_cons, if_neg hneg2]
        exact ih _ hovs
      | false =>
        subst honly
        have hneg1 : ¬ ((fun p : PreviewRow => p.is_eligible && p.firm == f)
            (mkPreviewRow headers parse_name_fn r false (none, false))
              = true) := by
          simp [mkPreviewRow_is_eligible]
        rw [preview_aux_cons_ineligible headers templates overrides
          parse_name_fn gen_fn valid_fn r rs c he',
          List.filter_cons, List.filter_cons, if_neg hneg1, if_neg hneg2]
        exact ih _ hovs

theorem substAux_nil (f : String → String) (fuel : Nat) :
    substAux f fuel [] = [] := by
  cases fuel <;> rfl

theorem spanNonBrace_clean (l rest : List Char)
    (hl : ∀ c ∈ l, c ≠ braceOpen ∧ c ≠ braceClose) :
    spanNonBrace (l ++ braceClose :: rest) = (l, braceClose :: rest) := by
  induction l with
  | nil => simp [spanNonBrace]
  | cons c cs ih =>
    have hc := hl c (List.mem_cons_self _ _)
    simp [spanNonBrace, hc.1, hc.2,
      ih (fun x hx => hl x (List.mem_cons_of_mem _ hx))]

theorem substAux_token (f : String → String) (fuel : Nat) (cs : List Char)
    (t : Char) (ts tail : List Char)
    (h : spanNonBrace cs = (t :: ts, braceClose :: tail)) :
    substAux f (fuel + 1) (braceOpen :: cs) =
      (f (String.mk (t :: ts))).data ++ substAux f fuel tail := by
  simp [substAux, h]

end DraftMate

namespace DraftMate

/-- Claim C3: with no applicable overrides and a nonempty rotatable set, the
eligible recipients at firm-key f are assigned, in row order, the rotatable
templates in round-robin order rotatable[(N-1) mod len], and ineligible rows
get (None, False) without advancing any firm counter. -/
theorem c3_rotation_round_robin (rows : List Row) (headers : List String)
    (templates : List Template) (overrides : List (String × String))
    (parse_name_fn : String → String × String) (only_recipients : Bool)
    (gen_fn : Row → Bool) (valid_fn : String → Bool) (f : String)
    (hrot : rotatable_templates templates ≠ [])
    (hov : ∀ r ∈ rows, overrides_lookup overrides (emailNormOf headers r) =
      none ∨ emailNormOf headers r = "") :
    ((build_preview_rows rows headers templates overrides parse_name_fn
        only_recipients gen_fn valid_fn).filter
      (fun p => p.is_eligible && p.firm == f)).map (fun p => p.template_id)
      = (List.range ((rows.filter (fun r =>
            eligibleRow headers gen_fn valid_fn r &&
            ((buildDerived headers r parse_name_fn).firm == f))).length)).map
          (fun k => ((rotatable_templates templates).get?
              (k % (rotatable_templates templates).length)).map
            (fun t => t.id))
    ∧ ∀ p ∈ build_preview_rows rows headers templates overrides parse_name_fn
        only_recipients gen_fn valid_fn,
        p.is_eligible = false → p.template_id = none ∧ p.is_manual = false := by
  constructor
  · have h := preview_rotation_seq headers templates overrides parse_name_fn
      gen_fn valid_fn only_recipients f hrot rows [] hov
    unfold build_preview_rows
    rw [h]
    exact List.map_congr_left (fun k _ => by
      rw [show countsGet [] f + k = k from by simp [countsGet]])
  · intro p hp hel
    exact preview_aux_ineligible_entry headers templates overrides
      parse_name_fn gen_fn valid_fn only_recipients rows [] p hp hel

/-- Witness for C3: 3 rotatable templates and 4 eligible same-firm recipients
are assigned A, B, C, A in row order. -/
theorem c3_rotation_witness :
    ((build_preview_rows [rowJane, rowBob, rowCara, rowDan] demoHeaders
        [tplA, tplB, tplC] [] parse_name true (fun _ => true)
        demoValid).filter
      (fun p => p.is_eligible && p.firm == "Acme")).map (fun p => p.template_id)
      = (List.range (([rowJane, rowBob, rowCara, rowDan].filter (fun r =>
            eligibleRow demoHeaders (fun _ => true) demoValid r &&
            ((buildDerived demoHeaders r parse_name).firm ==
              "Acme"))).length)).map
          (fun k => ((rotatable_templates [tplA, tplB, tplC]).get?
              (k % (rotatable_templates [tplA, tplB, tplC]).length)).map
            (fun t => t.id))
    ∧ ((build_preview_rows [rowJane, rowBob, rowCara, rowDan] demoHeaders
        [tplA, tplB, tplC] [] parse_name true (fun _ => true)
        demoValid).filter
      (fun p => p.is_eligible && p.firm == "Acme")).map (fun p => p.template_id)
      = [some "a", some "b", some "c", some "a"] :=
  ⟨(c3_rotation_round_robin [rowJane, rowBob, rowCara, rowDan] demoHeaders
      [tplA, tplB, tplC] [] parse_name true (fun _ => true) demoValid "Acme"
      (by decide) (by decide)).1,
   by decide⟩

theorem preview_facts (headers : List String) (templates : List Template)
    (overrides : List (String × String))
    (parse_name_fn : String → String × String) (gen_fn : Row → Bool)
    (valid_fn : String → Bool) :
    ∀ (rows : List Row) (c : Counts) (p : PreviewRow),
      p ∈ preview_aux headers templates overrides parse_name_fn gen_fn
        valid_fn true c rows →
      valid_fn p.email = true ∧
      p.email_norm = pyStrip (pyLower p.email) ∧
      (∃ r ∈ rows, emailNormOf headers r = p.email_norm) ∧
      (∀ tid, p.template_id = some tid → ∃ t ∈ templates, t.id = tid) := by
  intro rows
  induction rows with
  | nil => intro c p hp; simp [preview_aux] at hp
  | cons r rs ih =>
    intro c p hp
    by_cases he : eligibleRow headers gen_fn valid_fn r = true
    · rw [preview_aux_cons_eligible headers templates overrides parse_name_fn
        gen_fn valid_fn true r rs c he] at hp
      rcases List.mem_cons.mp hp with rfl | hmem
      · have hval : valid_fn (get_email headers r) = true :=
          ((Bool.and_eq_true _ _).mp he).2
        refine ⟨?_, ?_, ?_, ?_⟩
        · rw [mkPreviewRow_email]; exact hval
        · rw [mkPreviewRow_email_norm, mkPreviewRow_email]; rfl
        · exact ⟨r, List.mem_cons_self _ _,
            by rw [mkPreviewRow_email_norm]⟩
        · intro tid htid
          rw [mkPreviewRow_template_id] at htid
          obtain ⟨t, ht, hid⟩ := Option.map_eq_some'.mp htid
          exact ⟨t, choose_mem_templates headers parse_name_fn templates
            overrides r c t ht, hid⟩
      · obtain ⟨hv, hn, ⟨r1, hr1, hr1e⟩, ht⟩ := ih _ _ hmem
        exact ⟨hv, hn, ⟨r1, List.mem_cons_of_mem _ hr1, hr1e⟩, ht⟩
    · have he' : eligibleRow headers gen_fn valid_fn r = false :=
        Bool.eq_false_iff.mpr he
      rw [preview_aux_cons_skip headers templates overrides parse_name_fn
        gen_fn valid_fn r rs c he'] at hp
      obtain ⟨hv, hn, ⟨r1, hr1, hr1e⟩, ht⟩ := ih _ _ hp
      exact ⟨hv, hn, ⟨r1, List.mem_cons_of_mem _ hr1, hr1e⟩, ht⟩

theorem generate_aux_spec (headers : List String) (templates : List Template)
    (parse_name_fn : String → String × String) (rows : List Row)
    (subject_template : String) (resume_path : Option String)
    (dry_run : Bool) :
    ∀ (ps : List PreviewRow),
      (∀ p ∈ ps,
        p.email_norm = pyStrip (pyLower p.email) ∧ p.email_norm ≠ "" ∧
        (∃ r ∈ rows, emailNormOf headers r = p.email_norm) ∧
        (∀ tid, p.template_id = some tid →
          tid ≠ "" ∧ ∃ t ∈ templates, t.id = tid)) →
      (generate_aux headers templates parse_name_fn rows subject_template
          resume_path dry_run ps).1
        = (ps.filter (fun p => p.template_id.isSome)).length
      ∧ (dry_run = false →
          (generate_aux headers templates parse_name_fn rows subject_template
              resume_path dry_run ps).2.map (fun d => d.tpl.id)
            = ps.filterMap (fun p => p.template_id))
      ∧ ∀ d ∈ (generate_aux headers templates parse_name_fn rows
          subject_template resume_path dry_run ps).2, d.tpl ∈ templates := by
  intro ps
  induction ps with
  | nil =>
    intro _
    exact ⟨rfl, fun _ => rfl, by simp [generate_aux]⟩
  | cons p ps ih =>
    intro hfacts
    obtain ⟨hnorm, hne, ⟨r0, hr0, hr0e⟩, htid⟩ :=
      hfacts p (List.mem_cons_self _ _)
    have IH := ih (fun x hx => hfacts x (List.mem_cons_of_mem _ hx))
    cases hti : p.template_id with
    | none =>
      have hgen : generate_aux headers templates parse_name_fn rows
          subject_template resume_path dry_run (p :: ps) =
          generate_aux headers templates parse_name_fn rows subject_template
            resume_path dry_run ps := by
        simp [generate_aux, hti]
      rw [hgen]
      refine ⟨?_, ?_, IH.2.2⟩
      · rw [IH.1, List.filter_cons, if_neg (by simp [hti])]
      · intro hdr
        rw [IH.2.1 hdr, List.filterMap_cons, hti]
    | some tid =>
      obtain ⟨htne, t, htm, htid_eq⟩ := htid tid hti
      have hrow : (rows_by_email_lookup headers rows p.email_norm).isSome :=
        by
        unfold rows_by_email_lookup
        rw [if_neg hne, List.find?_isSome]
        exact ⟨r0, List.mem_reverse.mpr hr0, beq_iff_eq.mpr hr0e⟩
      obtain ⟨row1, hrow1⟩ := Option.isSome_iff_exists.mp hrow
      have htpl0 : (templates_by_id_last templates tid).isSome := by
        unfold templates_by_id_last
        rw [List.find?_isSome]
        exact ⟨t, List.mem_reverse.mpr htm, beq_iff_eq.mpr htid_eq⟩
      obtain ⟨tpl, htpl⟩ := Option.isSome_iff_exists.mp htpl0
      have htpl_find : List.find? (fun t => t.id == tid) templates.reverse =
          some tpl := htpl
      have htpl_id : tpl.id = tid :=
        beq_iff_eq.mp
          (@List.find?_some _ (fun t => t.id == tid) tpl templates.reverse
            htpl_find)
      have htpl_mem : tpl ∈ templates :=
        List.mem_reverse.mp
          (@List.mem_of_find?_eq_some _ (fun t => t.id == tid) tpl
            templates.reverse htpl_find)
      have hgen : generate_aux headers templates parse_name_fn rows
          subject_template resume_path dry_run (p :: ps) =
          if dry_run = true then
            ((generate_aux headers templates parse_name_fn rows
                subject_template resume_path dry_run ps).1 + 1,
             (generate_aux headers templates parse_name_fn rows
               subject_template resume_path dry_run ps).2)
          else
            ((generate_aux headers templates parse_name_fn rows
                subject_template resume_path dry_run ps).1 + 1,
             { toAddr := if p.email = "" then p.email_norm else p.email,
               subject := resolve_text headers row1 parse_name_fn
                 subject_template,
               body := wrap_in_html (resolve_text headers row1 parse_name_fn
                 tpl.text),
               attach := resume_path, tpl := tpl } ::
               (generate_aux headers templates parse_name_fn rows
                 subject_template resume_path dry_run ps).2) := by
        simp [generate_aux, hti, hne, htne, hrow1, htpl]
      rw [hgen]
      refine ⟨?_, ?_, ?_⟩
      · rw [List.filter_cons,
          if_pos (show (fun p : PreviewRow => p.template_id.isSome) p = true
            by simp [hti]),
          List.length_cons, ← IH.1]
        cases dry_run <;> rfl
      · intro hdr
        subst hdr
        rw [if_neg (by simp), List.map_cons, IH.2.1 rfl,
          List.filterMap_cons, hti, htpl_id]
      · intro d hd
        cases hdry : dry_run with
        | false =>
          subst hdry
          rw [if_neg (by simp)] at hd
          rcases List.mem_cons.mp hd with rfl | hmem
          · exact htpl_mem
          · exact IH.2.2 d hmem
        | true =>
          subst hdry
          rw [if_pos rfl] at hd
          exact IH.2.2 d hd

/-- Claim C2: for identical inputs, generation agrees with the preview built
with only_recipients = True: the returned count (dry run or not) equals the
number of preview entries with a non-null template id, and each such entry
yields exactly one draft whose template has that entry's template id (hence
the same template, ids being unique identifiers), drawn from the template
collection. Uses the documented invariants that template ids are nonempty
identifiers and a valid email normalizes to a nonempty string. -/
theorem c2_preview_generation_agreement (rows : List Row)
    (headers : List String) (templates : List Template)
    (overrides : List (String × String))
    (parse_name_fn : String → String × String) (gen_fn : Row → Bool)
    (valid_fn : String → Bool) (subject_template : String)
    (resume_path : Option String) (dry_run : Bool)
    (hid : ∀ t ∈ templates, t.id ≠ "")
    (hvalid : ∀ e, valid_fn e = true → pyStrip (pyLower e) ≠ "") :
    (generate_emails rows headers templates overrides parse_name_fn gen_fn
        valid_fn subject_template resume_path dry_run).1
      = ((build_preview_rows rows headers templates overrides parse_name_fn
          true gen_fn valid_fn).filter
        (fun p => p.template_id.isSome)).length
    ∧ (dry_run = false →
        (generate_emails rows headers templates overrides parse_name_fn gen_fn
            valid_fn subject_template resume_path dry_run).2.map
          (fun d => d.tpl.id)
          = (build_preview_rows rows headers templates overrides parse_name_fn
              true gen_fn valid_fn).filterMap (fun p => p.template_id))
    ∧ ∀ d ∈ (generate_emails rows headers templates overrides parse_name_fn
        gen_fn valid_fn subject_template resume_path dry_run).2,
        d.tpl ∈ templates := by
  have hfacts : ∀ p ∈ build_preview_rows rows headers templates overrides
      parse_name_fn true gen_fn valid_fn,
      p.email_norm = pyStrip (pyLower p.email) ∧ p.email_norm ≠ "" ∧
      (∃ r ∈ rows, emailNormOf headers r = p.email_norm) ∧
      (∀ tid, p.template_id = some tid →
        tid ≠ "" ∧ ∃ t ∈ templates, t.id = tid) := by
    intro p hp
    obtain ⟨hval, hnorm, hex, htid⟩ := preview_facts headers templates
      overrides parse_name_fn gen_fn valid_fn rows [] p hp
    refine ⟨hnorm, ?_, hex, ?_⟩
    · rw [hnorm]; exact hvalid _ hval
    · intro tid h
      obtain ⟨t, htm, hti⟩ := htid tid h
      exact ⟨hti ▸ hid t htm, t, htm, hti⟩
  exact generate_aux_spec headers templates parse_name_fn rows
    subject_template resume_path dry_run _ hfacts

/-- Witness for C2 at two concrete recipients and two templates (dry run):
the count equals the number of assigned preview entries, namely 2. -/
theorem c2_agreement_witness :
    (generate_emails [rowJane, rowBob] demoHeaders [tplA, tplB] [] parse_name
        (fun _ => true) demoValid "" none true).1
      = ((build_preview_rows [rowJane, rowBob] demoHeaders [tplA, tplB] []
          parse_name true (fun _ => true) demoValid).filter
        (fun p => p.template_id.isSome)).length
    ∧ (generate_emails [rowJane, rowBob] demoHeaders [tplA, tplB] [] parse_name
        (fun _ => true) demoValid "" none true).1 = 2 := by
  have H := c2_preview_generation_agreement [rowJane, rowBob] demoHeaders
    [tplA, tplB] [] parse_name (fun _ => true) demoValid "" none true
    (by decide)
    (by
      intro e he
      rcases of_decide_eq_true he with h | h | h | h <;> subst h <;> decide)
  exact ⟨H.1, by decide⟩

/-- Claim C1 counterexample: a stale override (template id "dead" no longer
exists) does NOT make choose_template_for_row return (None, False) when a
rotatable template exists; the recipient re-enters rotation and is generated. -/
theorem c1_counterexample :
    (choose_template_for_row demoHeaders parse_name [tplA]
        [("jane@acme.com", "dead")] rowJane []).1 ≠
      ((none : Option Template), false)
    ∧ (generate_emails [rowJane] demoHeaders [tplA]
        [("jane@acme.com", "dead")] parse_name (fun _ => true) demoValid ""
        none true).1 = 1 := by
  decide

/-- Claim C1 (amended): a row whose normalized email maps through the override
map to a template id that no longer exists is treated exactly as if it had no
override: choose_template_for_row falls through to automatic rotation (so it
returns (None, False) only when no rotatable templates exist, and otherwise
assigns the rotated template, which is then previewed and generated). -/
theorem c1_stale_override_falls_to_rotation (headers : List String)
    (parse_name_fn : String → String × String) (templates : List Template)
    (overrides : List (String × String)) (row : Row) (firm_counts : Counts)
    (tid : String)
    (h1 : emailNormOf headers row ≠ "")
    (h2 : overrides_lookup overrides (emailNormOf headers row) = some tid)
    (h3 : template_by_id templates tid = none) :
    choose_template_for_row headers parse_name_fn templates overrides row
        firm_counts =
      rotation_pick (rotatable_templates templates)
        (buildDerived headers row parse_name_fn).firm firm_counts := by
  simp [choose_template_for_row, h1, h2, h3]

/-- Witness for the amended C1 at a concrete stale override. -/
theorem c1_stale_override_witness :
    choose_template_for_row demoHeaders parse_name [tplA]
        [("jane@acme.com", "dead")] rowJane [] =
      rotation_pick (rotatable_templates [tplA])
        (buildDerived demoHeaders rowJane parse_name).firm [] :=
  c1_stale_override_falls_to_rotation demoHeaders parse_name [tplA]
    [("jane@acme.com", "dead")] rowJane [] "dead" (by decide) (by decide)
    (by decide)

/-- Claim C4: a nonempty normalized email present in the override map whose
template id exists among the templates always yields that template with
is_manual = True, regardless of manual_only (override wins over rotation). -/
theorem c4_manual_override_wins (headers : List String)
    (parse_name_fn : String → String × String) (templates : List Template)
    (overrides : List (String × String)) (row : Row) (firm_counts : Counts)
    (tid : String) (t : Template)
    (h1 : emailNormOf headers row ≠ "")
    (h2 : overrides_lookup overrides (emailNormOf headers row) = some tid)
    (h3 : template_by_id templates tid = some t) :
    (choose_template_for_row headers parse_name_fn templates overrides row
      firm_counts).1 = (some t, true) := by
  rw [choose_override_spec headers parse_name_fn templates overrides row
    firm_counts tid t h1 h2 h3]

/-- Witness for C4: the override picks the manual_only template tplM. -/
theorem c4_manual_override_witness :
    (choose_template_for_row demoHeaders parse_name [tplA, tplM]
      [("jane@acme.com", "m")] rowJane []).1 = (some tplM, true) :=
  c4_manual_override_wins demoHeaders parse_name [tplA, tplM]
    [("jane@acme.com", "m")] rowJane [] "m" tplM (by decide) (by decide)
    (by decide)

/-- Claim C10: a recipient resolved via a successful manual override leaves the
firm rotation counters untouched, and the remaining rows of the pass are
previewed with exactly the counters that were current before that row. -/
theorem c10_override_preserves_counters (headers : List String)
    (parse_name_fn : String → String × String) (templates : List Template)
    (overrides : List (String × String)) (gen_fn : Row → Bool)
    (valid_fn : String → Bool) (only_recipients : Bool) (row : Row)
    (rest : List Row) (firm_counts : Counts) (tid : String) (t : Template)
    (h1 : emailNormOf headers row ≠ "")
    (h2 : overrides_lookup overrides (emailNormOf headers row) = some tid)
    (h3 : template_by_id templates tid = some t)
    (helig : eligibleRow headers gen_fn valid_fn row = true) :
    (choose_template_for_row headers parse_name_fn templates overrides row
      firm_counts).2 = firm_counts
    ∧ List.drop 1 (preview_aux headers templates overrides parse_name_fn
        gen_fn valid_fn only_recipients firm_counts (row :: rest)) =
      preview_aux headers templates overrides parse_name_fn gen_fn valid_fn
        only_recipients firm_counts rest := by
  have hc := choose_override_spec headers parse_name_fn templates overrides
    row firm_counts tid t h1 h2 h3
  exact ⟨by rw [hc], by simp [preview_aux, helig, hc]⟩

/-- Witness for C10 at a concrete overridden recipient followed by another row. -/
theorem c10_override_witness :
    (choose_template_for_row demoHeaders parse_name [tplA, tplM]
      [("jane@acme.com", "m")] rowJane []).2 = ([] : Counts)
    ∧ List.drop 1 (preview_aux demoHeaders [tplA, tplM]
        [("jane@acme.com", "m")] parse_name (fun _ => true) demoValid true []
        (rowJane :: [rowBob])) =
      preview_aux demoHeaders [tplA, tplM] [("jane@acme.com", "m")] parse_name
        (fun _ => true) demoValid true [] [rowBob] :=
  c10_override_preserves_counters demoHeaders parse_name [tplA, tplM]
    [("jane@acme.com", "m")] (fun _ => true) demoValid true rowJane [rowBob]
    [] "m" tplM (by decide) (by decide) (by decide) (by decide)

/-- Claim C5: each placeholder token is resolved by stripping and lowercasing
it, then (a) looking it up in the derived map, else (b) matching it
case-insensitively against a header and substituting that column's trimmed raw
value, else (c) substituting the empty string (never an error); and resolve_text
applies exactly this resolution to a braced token. -/
theorem c5_resolution_priority (headers : List String) (row : Row)
    (parse_name_fn : String → String × String) (token : String)
    (hlow : ∀ h ∈ headers, pyLower h = h) :
    (resolve_token headers row parse_name_fn token =
      match lookupDerived (buildDerived headers row parse_name_fn)
          (pyLower (pyStrip token)) with
      | some v => v
      | none =>
        match headers.find?
            (fun h => pyLower h == pyLower (pyStrip token)) with
        | some h => pyStrip (rowGet row h)
        | none => "")
    ∧ (token ≠ "" → (∀ c ∈ token.data, c ≠ braceOpen ∧ c ≠ braceClose) →
        resolve_text headers row parse_name_fn ("\x7b" ++ token ++ "\x7d") =
          resolve_token headers row parse_name_fn token) := by
  constructor
  · have hf : headers.find? (fun h => h == pyLower (pyStrip token)) =
        headers.find? (fun h => pyLower h == pyLower (pyStrip token)) :=
      find?_congr_of_mem (fun a ha => by rw [hlow a ha])
    simp only [resolve_token]
    rw [hf]
  · intro hne hcl
    have hdata : ("\x7b" ++ token ++ "\x7d").data =
        braceOpen :: (token.data ++ [braceClose]) := rfl
    have hcontains : ("\x7b" ++ token ++ "\x7d").data.contains braceOpen =
        true := by
      rw [hdata]; simp [List.contains_cons]
    have hnil : token.data ≠ [] := by
      intro h0
      exact hne (by rw [← String.mk_data token, h0])
    rcases hdl : token.data with _ | ⟨c, cr⟩
    · exact absurd hdl hnil
    · have hspan : spanNonBrace (token.data ++ [braceClose]) =
          (c :: cr, braceClose :: []) := by
        rw [hdl] at hcl ⊢
        exact spanNonBrace_clean (c :: cr) [] hcl
      have : resolve_text headers row parse_name_fn
          ("\x7b" ++ token ++ "\x7d") =
          String.mk (substTokens (resolve_token headers row parse_name_fn)
            (("\x7b" ++ token ++ "\x7d").data)) := by
        unfold resolve_text
        rw [if_pos hcontains]
      rw [this, hdata]
      unfold substTokens
      have hlen : (braceOpen :: (token.data ++ [braceClose])).length =
          (token.data ++ [braceClose]).length + 1 := rfl
      rw [hlen, substAux_token _ _ _ _ _ _ hspan, substAux_nil,
        List.append_nil, ← hdl, String.mk_data, String.mk_data]

/-- Witness for C5 on the derived-map branch at a concrete row and token. -/
theorem c5_resolution_witness :
    (resolve_token demoHeaders rowJane parse_name "First Name" =
      match lookupDerived (buildDerived demoHeaders rowJane parse_name)
          (pyLower (pyStrip "First Name")) with
      | some v => v
      | none =>
        match demoHeaders.find?
            (fun h => pyLower h == pyLower (pyStrip "First Name")) with
        | some h => pyStrip (rowGet rowJane h)
        | none => "")
    ∧ resolve_text demoHeaders rowJane parse_name
        ("\x7b" ++ "First Name" ++ "\x7d") =
      resolve_token demoHeaders rowJane parse_name "First Name" := by
  have H := c5_resolution_priority demoHeaders rowJane parse_name "First Name"
    (by decide)
  exact ⟨H.1, H.2 (by decide) (by decide)⟩

/-- Claim C7: resolve_text is idempotent whenever its output contains no
literal open brace (the single-pass substitution never rescans its output). -/
theorem c7_resolve_text_idempotent (headers : List String) (row : Row)
    (parse_name_fn : String → String × String) (text : String)
    (h : (resolve_text headers row parse_name_fn text).data.contains
      braceOpen = false) :
    resolve_text headers row parse_name_fn
        (resolve_text headers row parse_name_fn text) =
      resolve_text headers row parse_name_fn text := by
  generalize hs : resolve_text headers row parse_name_fn text = s at h ⊢
  have h' : braceOpen ∉ s.data := by simpa using h
  simp [resolve_text, h']

/-- Witness for C7 at a concrete template text. -/
theorem c7_idempotent_witness :
    resolve_text demoHeaders rowJane parse_name
        (resolve_text demoHeaders rowJane parse_name
          "Hi \x7bfirst name\x7d,\nbest") =
      resolve_text demoHeaders rowJane parse_name
        "Hi \x7bfirst name\x7d,\nbest" :=
  c7_resolve_text_idempotent demoHeaders rowJane parse_name
    "Hi \x7bfirst name\x7d,\nbest" (by decide)

/-- Claim C9: rows with no generate/gen column (case-insensitive) are
generate-enabled by default; otherwise the "generate" column, else the "gen"
column, decides via the truthy-string parse. -/
theorem c9_generate_column_detection (row : Row) :
    ((∀ kv ∈ row, pyLower kv.1 ≠ "generate" ∧ pyLower kv.1 ≠ "gen") →
      is_generate_true row = true)
    ∧ (∀ k, lower_key_lookup row "generate" = some k →
        is_generate_true row = parse_bool (rowGet row k))
    ∧ (lower_key_lookup row "generate" = none →
        ∀ k, lower_key_lookup row "gen" = some k →
          is_generate_true row = parse_bool (rowGet row k)) := by
  refine ⟨?_, ?_, ?_⟩
  · intro h
    have hg : lower_key_lookup row "generate" = none := by
      simp only [lower_key_lookup]
      rw [List.find?_eq_none]
      intro x hx
      rw [List.mem_reverse, List.mem_map] at hx
      obtain ⟨kv, hkv, rfl⟩ := hx
      simp [(h kv hkv).1]
    have hn : lower_key_lookup row "gen" = none := by
      simp only [lower_key_lookup]
      rw [List.find?_eq_none]
      intro x hx
      rw [List.mem_reverse, List.mem_map] at hx
      obtain ⟨kv, hkv, rfl⟩ := hx
      simp [(h kv hkv).2]
    simp [is_generate_true, hg, hn]
  · intro k hk
    simp [is_generate_true, hk]
  · intro hg k hk
    simp [is_generate_true, hg, hk]

/-- Witness for C9: default-true without the columns, and a case-insensitive
"GEN" column deciding eligibility. -/
theorem c9_generate_witness :
    is_generate_true [("email", "x@y.co")] = true
    ∧ is_generate_true [("email", "x@y.co"), ("GEN", "yes")] =
        parse_bool (rowGet [("email", "x@y.co"), ("GEN", "yes")] "GEN") :=
  ⟨(c9_generate_column_detection [("email", "x@y.co")]).1 (by decide),
   (c9_generate_column_detection [("email", "x@y.co"), ("GEN", "yes")]).2.2
     (by decide) "GEN" (by decide)⟩

/-- Claim C6: build_preview_rows is deterministic across calls on identical
inputs because the firm rotation counters are created fresh inside every call
(and generation independently restarts from the same fresh counters). -/
theorem c6_preview_deterministic (rows : List Row) (headers : List String)
    (templates : List Template) (overrides : List (String × String))
    (parse_name_fn : String → String × String) (only_recipients : Bool)
    (gen_fn : Row → Bool) (valid_fn : String → Bool)
    (subject_template : String) (resume_path : Option String)
    (dry_run : Bool) :
    build_preview_rows rows headers templates overrides parse_name_fn
        only_recipients gen_fn valid_fn =
      build_preview_rows rows headers templates overrides parse_name_fn
        only_recipients gen_fn valid_fn
    ∧ build_preview_rows rows headers templates overrides parse_name_fn
        only_recipients gen_fn valid_fn =
      preview_aux headers templates overrides parse_name_fn gen_fn valid_fn
        only_recipients [] rows
    ∧ generate_emails rows headers templates overrides parse_name_fn gen_fn
        valid_fn subject_template resume_path dry_run =
      generate_aux headers templates parse_name_fn rows subject_template
        resume_path dry_run
        (preview_aux headers templates overrides parse_name_fn gen_fn
          valid_fn true [] rows) :=
  ⟨rfl, rfl, rfl⟩

/-- Claim C8 is a code bug: Python lstrip("<br>")/rstrip("<br>") strip the
character SET, not the marker, so the body text "b" loses its only character
and wraps identically to the empty body. -/
theorem c8_wrap_charset_strip_bug :
    wrap_in_html "b" =
      "<html><body style=\x27margin:0;padding:0;font-family:Arial,sans-serif;\x27></body></html>"
    ∧ wrap_in_html "b" = wrap_in_html "" := by
  decide

end DraftMate
